import Mathlib

/-!
Verification of the tydle multi-client extraction pipeline and signature
deciphering subsystem against its natural-language specification.

The Rust source is shallowly embedded: pure functions become Lean functions,
`HashMap` becomes an association list whose `insert` replaces the value of an
existing key (the `mapInsert` helper below), interior-mutable cache state is
passed explicitly, and fallible code returns `Except` or `Option`. Clock reads
(`SystemTime::now`) and the embedded JavaScript solver are parameters of the
embedded functions.
-/

namespace Tydle

/-- Association-list model of `std::collections::HashMap`: `insert` replaces
the value stored under an existing key and otherwise appends the new pair. -/
def mapInsert {K V : Type} [DecidableEq K] : List (K × V) → K → V → List (K × V)
  | [], k, v => [(k, v)]
  | (k', v') :: rest, k, v =>
      if k' = k then (k, v) :: rest else (k', v') :: mapInsert rest k v

/-- Association-list model of `HashMap::get` (first matching key wins; keys are
kept distinct by `mapInsert`). -/
def mapLookup {K V : Type} [DecidableEq K] : List (K × V) → K → Option V
  | [], _ => none
  | (k', v') :: rest, k => if k' = k then some v' else mapLookup rest k

/-- Association-list model of `HashMap::remove` (drops the pair stored under
the key, if any). -/
def mapRemove {K V : Type} [DecidableEq K] : List (K × V) → K → List (K × V)
  | [], _ => []
  | (k', v') :: rest, k =>
      if k' = k then rest else (k', v') :: mapRemove rest k

/-- Model of `src/cache.rs`: `CacheStore<T>` is a map from keys to strings with
interior mutability; here the state is passed explicitly. -/
def CacheStore (K : Type) : Type := List (K × String)

/-- Model of `CacheStore::new()`: the cache starts empty. -/
def CacheStore.empty (K : Type) : CacheStore K := []

/-- Model of `CacheAccess::add` for `CacheStore` (src/cache.rs lines 50-52):
`self.cache.borrow_mut().insert(key, value)`, i.e. a plain `HashMap::insert`,
which replaces any previously stored value. -/
def CacheStore.add {K : Type} [DecidableEq K] (c : CacheStore K) (key : K)
    (value : String) : CacheStore K :=
  mapInsert c key value

/-- Model of `CacheAccess::get` for `CacheStore` (src/cache.rs lines 46-48). -/
def CacheStore.get {K : Type} [DecidableEq K] (c : CacheStore K) (key : K) :
    Option String :=
  mapLookup c key

/-- Model of `CacheAccess::contains` for `CacheStore` (src/cache.rs lines 54-56). -/
def CacheStore.containsKey {K : Type} [DecidableEq K] (c : CacheStore K) (key : K) :
    Bool :=
  (mapLookup c key).isSome

theorem mapLookup_mapInsert_self {K V : Type} [DecidableEq K]
    (m : List (K × V)) (k : K) (v : V) :
    mapLookup (mapInsert m k v) k = some v := by
  induction m with
  | nil => simp [mapInsert, mapLookup]
  | cons p rest ih =>
      by_cases h : p.1 = k
      · simp [mapInsert, mapLookup, h]
      · simp [mapInsert, mapLookup, h, ih]

theorem mapLookup_mapInsert_ne {K V : Type} [DecidableEq K]
    (m : List (K × V)) (k k' : K) (v : V) (h : k' ≠ k) :
    mapLookup (mapInsert m k v) k' = mapLookup m k' := by
  have hk : k ≠ k' := fun hh => h hh.symm
  induction m with
  | nil => simp [mapInsert, mapLookup, hk]
  | cons p rest ih =>
      rcases p with ⟨pk, pv⟩
      by_cases hp : pk = k
      · subst hp
        simp [mapInsert, mapLookup, hk]
      · by_cases hq : pk = k'
        · simp [mapInsert, mapLookup, hp, hq, h]
        · simp [mapInsert, mapLookup, hp, hq, ih]

/-- C6 counterexample: the claim says a second `add(k, v')` does not replace the
first value, so `get(k)` would still return `Some(v)`. On the code, `add` is
`HashMap::insert`: after `add "k" "v"` and `add "k" "w"`, `get "k"` returns
`some "w"`, not `some "v"`. -/
theorem C6_add_replaces_counterexample :
    CacheStore.get (CacheStore.add (CacheStore.add (CacheStore.empty String) "k" "v") "k" "w") "k"
      = some "w" ∧
    CacheStore.get (CacheStore.add (CacheStore.add (CacheStore.empty String) "k" "v") "k" "w") "k"
      ≠ some "v" := by
  constructor
  · rfl
  · intro h
    simp [CacheStore.get, CacheStore.add, CacheStore.empty, mapInsert, mapLookup] at h

/-- C6 (amended): for any key `k` and values `v`, `v'`: after `add(k, v)`,
`get(k) = some v`; a second `add(k, v')` REPLACES the stored value
(last-writer-wins), so `get(k)` then returns `some v'`. -/
theorem C6_cache_add_get_last_writer_wins {K : Type} [DecidableEq K]
    (c : CacheStore K) (k : K) (v v' : String) :
    CacheStore.get (CacheStore.add c k v) k = some v ∧
    CacheStore.get (CacheStore.add (CacheStore.add c k v) k v') k = some v' :=
  ⟨mapLookup_mapInsert_self c k v,
   mapLookup_mapInsert_self (CacheStore.add c k v) k v'⟩

/-- Splits a string at the first occurrence of the (non-empty) separator
substring, returning the parts before and after it; `none` when the separator
does not occur. Model of the first split performed by Rust
`str::splitn(2, sep)`. -/
def splitOnceSubAux (sep : List Char) : List Char → List Char → Option (String × String)
  | [], _ => none
  | c :: rest, acc =>
      if sep.isPrefixOf (c :: rest) then
        some (String.mk acc.reverse, String.mk ((c :: rest).drop sep.length))
      else
        splitOnceSubAux sep rest (c :: acc)

def splitOnceSub (s : String) (sep : String) : Option (String × String) :=
  splitOnceSubAux sep.data s.data []

/-- Model of Rust `str::splitn(2, sep).collect::<Vec<_>>()`: one or two pieces,
never zero (the whole string when the separator is absent). -/
def rustSplitn2 (s : String) (sep : String) : List String :=
  match splitOnceSub s sep with
  | some (a, b) => [a, b]
  | none => [s]

/-- Model of `parse_data_sync_id` (src/extractor/auth.rs lines 118-128):
split on the first `"||"`, then match on the (at most two) parts exactly as
the Rust `match` does. -/
def parse_data_sync_id (data_sync_id : String) : Option String × Option String :=
  let parts := rustSplitn2 data_sync_id "||"
  let first := parts.get? 0
  let second := parts.get? 1
  match first, second with
  | some f, some sec => if sec.isEmpty then (none, some f) else (some f, some sec)
  | some f, none => (none, some f)
  | none, _ => (none, none)

/-- C4: the claim states `parse("A||B") = (some A, some B)`,
`parse("A||") = (none, some A)`, `parse("A") = (none, some A)` and
`parse("") = (none, none)`. The first three hold, but on the empty string
`splitn(2, "||")` yields the single piece `""`, so the second match arm fires
and the code returns `(none, some "")` — the `(none, none)` arm of the Rust
`match` is unreachable. -/
theorem C4_parse_data_sync_id_empty_input :
    parse_data_sync_id "A||B" = (some "A", some "B") ∧
    parse_data_sync_id "A||" = (none, some "A") ∧
    parse_data_sync_id "A" = (none, some "A") ∧
    parse_data_sync_id "" = (none, some "") ∧
    parse_data_sync_id "" ≠ (none, none) := by
  refine ⟨rfl, rfl, rfl, rfl, ?_⟩
  intro h
  simp [parse_data_sync_id, rustSplitn2, splitOnceSub, splitOnceSubAux] at h

/-- Model of `SidCookies` (src/extractor/cookies.rs lines 12-16). -/
structure SidCookies where
  yt_sapisid : Option String
  yt_1psapisid : Option String
  yt_3psapisid : Option String

/-- Model of `make_sid_authorization` (src/extractor/cookies.rs lines 88-135).
The clock read (`SystemTime::now`, rounded to whole seconds) is the `time_stamp`
parameter and the SHA-1 hex digest function is the `sha1_hex` parameter. The
`additional_parts` map is carried as an association list (the call sites insert
at most the single key `"u"`). The source computes `joined` and feeds it to
SHA-1, binds the digest to `sid_hash`, and then never reads `sid_hash` or
`time_stamp` again: the emitted token is built only from the concatenated
additional-part values. -/
def make_sid_authorization (sha1_hex : String → String) (time_stamp : Nat)
    (scheme : String) (sid : String) (origin : String)
    (additional_parts : List (String × String)) : String :=
  let hash_parts : List String :=
    (if additional_parts.isEmpty then []
     else [String.intercalate ":" (additional_parts.map (fun p => p.2))]) ++
    [toString time_stamp, sid, origin]
  let joined := String.intercalate " " hash_parts
  let _sid_hash := sha1_hex joined
  let parts : List String :=
    if additional_parts.isEmpty then []
    else [String.join (additional_parts.map (fun p => p.2))]
  scheme ++ " " ++ String.intercalate "_" parts

/-- Default origin `YT_URL` (src/yt_interface.rs line 112). -/
def YT_URL : String := "https://www.youtube.com"

/-- Model of `get_sid_authorization_header` (src/extractor/cookies.rs lines
138-173): one token per present SAPISID slot, joined by single spaces. -/
def get_sid_authorization_header (sha1_hex : String → String) (time_stamp : Nat)
    (sid_cookies : SidCookies) (origin : Option String)
    (user_session_id : Option String) : Option String :=
  let additional_parts : List (String × String) :=
    match user_session_id with
    | some u => [("u", u)]
    | none => []
  let slots : List (String × Option String) :=
    [("SAPISIDHASH", sid_cookies.yt_sapisid),
     ("SAPISID1PHASH", sid_cookies.yt_1psapisid),
     ("SAPISID3PHASH", sid_cookies.yt_3psapisid)]
  let authorizations := slots.filterMap (fun slot =>
    slot.2.map (fun sid =>
      make_sid_authorization sha1_hex time_stamp slot.1 sid
        (origin.getD YT_URL) additional_parts))
  if authorizations.isEmpty then none
  else some (String.intercalate " " authorizations)

/-- C1: the claim states each emitted token has the form
`<scheme> <timestamp>_<sha1_hex>[_<concat_extra>]` with the timestamp and the
SHA-1 hex digest present in the token. On the code, for ANY digest function,
timestamp and SAPISID value the emitted token is just `<scheme> <concat_extra>`
(`"SAPISIDHASH "` when there are no additional parts): `make_sid_authorization`
computes the digest into `sid_hash` and then drops both it and the timestamp. -/
theorem C1_sid_token_missing_timestamp_and_hash
    (sha1_hex : String → String) (time_stamp : Nat) (sid uid : String) :
    make_sid_authorization sha1_hex time_stamp "SAPISIDHASH" sid YT_URL []
      = "SAPISIDHASH " ∧
    make_sid_authorization sha1_hex time_stamp "SAPISIDHASH" sid YT_URL [("u", uid)]
      = "SAPISIDHASH " ++ uid ∧
    get_sid_authorization_header sha1_hex time_stamp ⟨some sid, none, none⟩ none none
      = some "SAPISIDHASH " := by
  exact ⟨rfl, rfl, rfl⟩

/-- Witness for C1 at fully concrete inputs. -/
theorem C1_sid_token_missing_timestamp_and_hash_witness :
    make_sid_authorization (fun s => s) 1700000000 "SAPISIDHASH" "abc" YT_URL []
      = "SAPISIDHASH " :=
  (C1_sid_token_missing_timestamp_and_hash (fun s => s) 1700000000 "abc" "u1").1

/-- Model of `SignatureType` (src/cipher/decipher.rs lines 11-23). -/
inductive SignatureType
  | nsignature
  | signature
deriving DecidableEq

def SignatureType.as_str : SignatureType → String
  | .nsignature => "n"
  | .signature => "sig"

/-- Result of one `decrypt_signature` call: the produced value, the
`player_cache` state after the call, and whether the JS solver
(`extract_signature_function`, which executes the player script in the
embedded JS runtime) had to run. -/
structure DecryptOutcome where
  value : String
  player_cache : CacheStore (String × String)
  ran_solver : Bool

/-- Model of `decrypt_signature` (src/cipher/decipher.rs lines 79-98). The JS
solver run (`extract_signature_function`, successful case) is the `solver`
parameter. The source looks the key up in `player_cache`; on a miss it runs the
solver and returns the result directly — it contains no `add` call, so the
cache state is returned unchanged. -/
def decrypt_signature (solver : SignatureType → String → String)
    (player_cache : CacheStore (String × String)) (signature_type : SignatureType)
    (encrypted_signature : String) (player_url : String) : DecryptOutcome :=
  let cache_id := (signature_type.as_str ++ "-" ++ player_url, encrypted_signature)
  match CacheStore.get player_cache cache_id with
  | some cached_deciphered_value =>
      ⟨cached_deciphered_value, player_cache, false⟩
  | none =>
      ⟨solver signature_type encrypted_signature, player_cache, true⟩

/-- The cache state is never changed by `decrypt_signature`. -/
theorem decrypt_signature_cache_unchanged (solver : SignatureType → String → String)
    (pc : CacheStore (String × String)) (st : SignatureType) (s p : String) :
    (decrypt_signature solver pc st s p).player_cache = pc := by
  unfold decrypt_signature
  cases h : CacheStore.get pc (st.as_str ++ "-" ++ p, s) <;> simp [h]

/-- C5: the claim states that after a successful decipher of `s` against player
URL `p` the result is memoized in `player_cache` under `("sig-" ++ p, s)`, so a
repeat call returns the cached value without re-running the JS solver. On the
code, starting from the empty cache: the first call runs the solver, the cache
afterwards still has no entry under `("sig-" ++ p, s)` (no write ever happens),
and the identical second call runs the solver again. -/
theorem C5_decrypt_signature_not_memoized
    (solver : SignatureType → String → String) :
    (decrypt_signature solver [] .signature "SIGVALUE" "https://p").ran_solver = true ∧
    (decrypt_signature solver [] .signature "SIGVALUE" "https://p").player_cache = [] ∧
    CacheStore.get
      (decrypt_signature solver [] .signature "SIGVALUE" "https://p").player_cache
      ("sig-https://p", "SIGVALUE") = none ∧
    (decrypt_signature solver
      (decrypt_signature solver [] .signature "SIGVALUE" "https://p").player_cache
      .signature "SIGVALUE" "https://p").ran_solver = true :=
  ⟨rfl, rfl, rfl, rfl⟩

/-- Splits a string at the first occurrence of a separator character, model of
Rust `str::split_once(char)`. -/
def splitOnceCharAux (sep : Char) : List Char → List Char → Option (String × String)
  | [], _ => none
  | c :: rest, acc =>
      if c = sep then some (String.mk acc.reverse, String.mk rest)
      else splitOnceCharAux sep rest (c :: acc)

def splitOnceChar (s : String) (sep : Char) : Option (String × String) :=
  splitOnceCharAux sep s.data []

/-- Model of the `YtClient` enumeration (src/yt_interface.rs lines 31-55),
thirteen variants including `TvSimply`. -/
inductive YtClient
  | Web
  | WebSafari
  | WebEmbedded
  | WebMusic
  | WebCreator
  | Android
  | AndroidSdkless
  | AndroidVr
  | IOS
  | MWeb
  | Tv
  | TvSimply
  | TvEmbedded
deriving DecidableEq

/-- Model of `YtClient::as_str` (src/yt_interface.rs lines 77-93). -/
def YtClient.as_str : YtClient → String
  | .Web => "web"
  | .WebSafari => "web_safari"
  | .WebEmbedded => "web_embedded"
  | .WebMusic => "web_music"
  | .WebCreator => "web_creator"
  | .Android => "android"
  | .AndroidSdkless => "android_sdkless"
  | .AndroidVr => "android_vr"
  | .IOS => "ios"
  | .MWeb => "mweb"
  | .Tv => "tv"
  | .TvSimply => "tv_simply"
  | .TvEmbedded => "tv_embedded"

/-- Model of `YtClient::get_variant` (src/yt_interface.rs lines 95-100 and the
identical copy at src/extractor/yt_interface.rs lines 66-71):
`split_once('_').map(|(_, v)| v).unwrap_or(self.as_str())` — note that a name
without an underscore yields the WHOLE name, not the empty string. -/
def YtClient.get_variant (c : YtClient) : String :=
  match splitOnceChar c.as_str '_' with
  | some p => p.2
  | none => c.as_str

/-- Model of `YtClient::get_base` (src/yt_interface.rs lines 102-107). -/
def YtClient.get_base (c : YtClient) : String :=
  match splitOnceChar c.as_str '_' with
  | some p => p.1
  | none => c.as_str

def PREFERRED_LOCALE : String := "en"

/-- Model of `StreamingProtocol` (src/extractor/token_policy.rs lines 6-10). -/
inductive StreamingProtocol
  | https
  | dash
  | hls
deriving DecidableEq

/-- Model of `GvsPoTokenPolicy` (src/extractor/token_policy.rs lines 23-29). -/
structure GvsPoTokenPolicy where
  required : Bool
  recommended : Bool
  not_required_for_premium : Bool
  not_required_with_player_token : Bool
deriving DecidableEq

def GvsPoTokenPolicy.defaultPolicy : GvsPoTokenPolicy :=
  ⟨false, false, false, false⟩

/-- Model of `create_default_gvs_po_token_policy`
(src/extractor/token_policy.rs lines 42-54): inserts the default policy for
Https, Hls, Dash. -/
def create_default_gvs_po_token_policy : List (StreamingProtocol × GvsPoTokenPolicy) :=
  mapInsert (mapInsert (mapInsert [] .https .defaultPolicy) .hls .defaultPolicy)
    .dash .defaultPolicy

/-- Model of `PlayerPoTokenPolicy` (src/extractor/token_policy.rs lines 57-61). -/
structure PlayerPoTokenPolicy where
  required : Bool
  recommended : Bool
  not_required_for_premium : Bool
deriving DecidableEq

def PlayerPoTokenPolicy.defaultPolicy : PlayerPoTokenPolicy := ⟨false, false, false⟩

/-- Model of `SubsPoTokenPolicy` (src/extractor/token_policy.rs lines 74-78). -/
structure SubsPoTokenPolicy where
  required : Bool
  recommended : Bool
  not_required_for_premium : Bool
deriving DecidableEq

def SubsPoTokenPolicy.defaultPolicy : SubsPoTokenPolicy := ⟨false, false, false⟩

/-- Gvs half of `WEB_PO_TOKEN_POLICIES` (src/extractor/token_policy.rs lines
111-157): Https and Dash require a PO token (waived for premium), Hls does
not. The player and subs halves are all-false defaults. -/
def WEB_PO_TOKEN_POLICIES_gvs : List (StreamingProtocol × GvsPoTokenPolicy) :=
  mapInsert (mapInsert (mapInsert [] .https ⟨true, true, true, false⟩)
    .dash ⟨true, true, true, false⟩) .hls ⟨false, true, false, false⟩

/-- Values stored in a client's `INNERTUBE_CONTEXT.client` mapping
(serde_json `Value`s restricted to the strings and integers the table uses). -/
inductive CtxVal
  | str (s : String)
  | num (n : Int)
deriving DecidableEq

/-- Model of `InnerTubeClient` (src/extractor/client.rs lines 16-39). The
nested `innertube_context` map always holds the single key `client` (plus
`thirdParty.embedUrl` added by the build loop for embedded variants, modeled
by the `has_third_party_embed_url` flag). -/
structure InnerTubeClient where
  innertube_context_client : List (String × CtxVal)
  has_third_party_embed_url : Bool
  innertube_host : String
  innertube_context_client_name : Int
  supports_cookies : Bool
  require_js_player : Bool
  require_auth : Bool
  authenticated_user_agent : Option String
  gvs_po_token_policy : List (StreamingProtocol × GvsPoTokenPolicy)
  player_po_token_policy : PlayerPoTokenPolicy
  subs_po_token_policy : SubsPoTokenPolicy
  priority : Int
deriving DecidableEq

def DEFAULT_INNERTUBE_HOST : String := "www.youtube.com"

def webClient : InnerTubeClient :=
  { innertube_context_client :=
      [("clientName", .str "WEB"), ("clientVersion", .str "2.20250925.01.00"),
       ("hl", .str PREFERRED_LOCALE)],
    has_third_party_embed_url := false,
    innertube_host := DEFAULT_INNERTUBE_HOST,
    innertube_context_client_name := 1,
    supports_cookies := true,
    require_js_player := true,
    require_auth := false,
    authenticated_user_agent := none,
    gvs_po_token_policy := WEB_PO_TOKEN_POLICIES_gvs,
    player_po_token_policy := .defaultPolicy,
    subs_po_token_policy := .defaultPolicy,
    priority := 0 }

def webSafariClient : InnerTubeClient :=
  { webClient with
    innertube_context_client :=
      [("clientName", .str "WEB"), ("clientVersion", .str "2.20250925.01.00"),
       ("userAgent", .str "Mozilla/5.0 (Macintosh; Intel Mac OS X 10_15_7) AppleWebKit/605.1.15 (KHTML, like Gecko) Version/15.5 Safari/605.1.15,gzip(gfe)"),
       ("hl", .str PREFERRED_LOCALE)] }

def webEmbeddedClient : InnerTubeClient :=
  { webClient with
    innertube_context_client :=
      [("clientName", .str "WEB_EMBEDDED_PLAYER"),
       ("clientVersion", .str "1.20250923.21.00"), ("hl", .str PREFERRED_LOCALE)],
    innertube_context_client_name := 56 }

def webMusicClient : InnerTubeClient :=
  { innertube_context_client :=
      [("clientName", .str "WEB_REMIX"), ("clientVersion", .str "1.20250922.03.00"),
       ("hl", .str PREFERRED_LOCALE)],
    has_third_party_embed_url := false,
    innertube_host := "music.youtube.com",
    innertube_context_client_name := 67,
    supports_cookies := true,
    require_js_player := true,
    require_auth := false,
    authenticated_user_agent := none,
    gvs_po_token_policy := WEB_PO_TOKEN_POLICIES_gvs,
    player_po_token_policy := .defaultPolicy,
    subs_po_token_policy := .defaultPolicy,
    priority := 0 }

def webCreatorClient : InnerTubeClient :=
  { webClient with
    innertube_context_client :=
      [("clientName", .str "WEB_CREATOR"), ("clientVersion", .str "1.20250922.03.00"),
       ("hl", .str PREFERRED_LOCALE)],
    innertube_context_client_name := 62,
    require_auth := true }

def androidGvsPoTokenPolicy : List (StreamingProtocol × GvsPoTokenPolicy) :=
  mapInsert (mapInsert (mapInsert [] .https ⟨true, true, false, true⟩)
    .dash ⟨true, true, false, true⟩) .hls ⟨false, true, false, true⟩

def androidClient : InnerTubeClient :=
  { innertube_context_client :=
      [("clientName", .str "ANDROID"), ("clientVersion", .str "20.10.38"),
       ("androidSdkVersion", .num 30),
       ("userAgent", .str "com.google.android.youtube/20.10.38 (Linux; U; Android 11) gzip"),
       ("osName", .str "Android"), ("osVersion", .str "11"),
       ("hl", .str PREFERRED_LOCALE)],
    has_third_party_embed_url := false,
    innertube_host := DEFAULT_INNERTUBE_HOST,
    innertube_context_client_name := 3,
    supports_cookies := false,
    require_js_player := false,
    require_auth := false,
    authenticated_user_agent := none,
    gvs_po_token_policy := androidGvsPoTokenPolicy,
    player_po_token_policy := ⟨false, true, false⟩,
    subs_po_token_policy := .defaultPolicy,
    priority := 0 }

def androidSdklessClient : InnerTubeClient :=
  { androidClient with
    innertube_context_client :=
      [("clientName", .str "ANDROID"), ("clientVersion", .str "20.10.38"),
       ("userAgent", .str "com.google.android.youtube/20.10.38 (Linux; U; Android 11) gzip"),
       ("osName", .str "Android"), ("osVersion", .str "11"),
       ("hl", .str PREFERRED_LOCALE)],
    gvs_po_token_policy := create_default_gvs_po_token_policy,
    player_po_token_policy := .defaultPolicy }

def androidVrClient : InnerTubeClient :=
  { androidClient with
    innertube_context_client :=
      [("clientName", .str "ANDROID_VR"), ("clientVersion", .str "1.65.10"),
       ("deviceMake", .str "Oculus"), ("deviceModel", .str "Quest 3"),
       ("androidSdkVersion", .num 32),
       ("userAgent", .str "com.google.android.apps.youtube.vr.oculus/1.65.10 (Linux; U; Android 12L; eureka-user Build/SQ3A.220605.009.A1) gzip"),
       ("osName", .str "Android"), ("osVersion", .str "12L"),
       ("hl", .str PREFERRED_LOCALE)],
    innertube_context_client_name := 28,
    gvs_po_token_policy := create_default_gvs_po_token_policy,
    player_po_token_policy := .defaultPolicy }

def iosGvsPoTokenPolicy : List (StreamingProtocol × GvsPoTokenPolicy) :=
  mapInsert (mapInsert [] .https ⟨true, true, false, true⟩) .hls ⟨true, true, false, true⟩

def iosClient : InnerTubeClient :=
  { innertube_context_client :=
      [("clientName", .str "IOS"), ("clientVersion", .str "20.10.4"),
       ("deviceMake", .str "Apple"), ("deviceModel", .str "iPhone16,2"),
       ("userAgent", .str "com.google.ios.youtube/20.10.4 (iPhone16,2; U; CPU iOS 18_3_2 like Mac OS X;)"),
       ("osName", .str "iPhone"), ("osVersion", .str "18.3.2.22D82"),
       ("hl", .str PREFERRED_LOCALE)],
    has_third_party_embed_url := false,
    innertube_host := DEFAULT_INNERTUBE_HOST,
    innertube_context_client_name := 5,
    supports_cookies := false,
    require_js_player := false,
    require_auth := false,
    authenticated_user_agent := none,
    gvs_po_token_policy := iosGvsPoTokenPolicy,
    player_po_token_policy := ⟨false, true, false⟩,
    subs_po_token_policy := .defaultPolicy,
    priority := 0 }

def mwebClient : InnerTubeClient :=
  { webClient with
    innertube_context_client :=
      [("clientName", .str "MWEB"), ("clientVersion", .str "2.20250925.01.00"),
       ("userAgent", .str "Mozilla/5.0 (iPad; CPU OS 16_7_10 like Mac OS X) AppleWebKit/605.1.15 (KHTML, like Gecko) Version/16.6 Mobile/15E148 Safari/604.1,gzip(gfe)"),
       ("hl", .str PREFERRED_LOCALE)],
    innertube_context_client_name := 2 }

def tvClient : InnerTubeClient :=
  { webClient with
    innertube_context_client :=
      [("clientName", .str "TVHTML5"), ("clientVersion", .str "7.20250923.13.00"),
       ("userAgent", .str "Mozilla/5.0 (ChromiumStylePlatform) Cobalt/Version"),
       ("hl", .str PREFERRED_LOCALE)],
    innertube_context_client_name := 7,
    authenticated_user_agent :=
      some "Mozilla/5.0 (ChromiumStylePlatform) Cobalt/25.lts.30.1034943-gold (unlike Gecko), Unknown_TV_Unknown_0/Unknown (Unknown, Unknown)" }

def tvSimplyGvsPoTokenPolicy : List (StreamingProtocol × GvsPoTokenPolicy) :=
  mapInsert (mapInsert (mapInsert [] .https ⟨true, true, false, false⟩)
    .dash ⟨true, true, false, false⟩) .hls ⟨false, true, false, false⟩

def tvSimplyClient : InnerTubeClient :=
  { innertube_context_client :=
      [("clientName", .str "TVHTML5_SIMPLY"), ("clientVersion", .str "1.0"),
       ("hl", .str PREFERRED_LOCALE)],
    has_third_party_embed_url := false,
    innertube_host := DEFAULT_INNERTUBE_HOST,
    innertube_context_client_name := 75,
    supports_cookies := false,
    require_js_player := true,
    require_auth := false,
    authenticated_user_agent := none,
    gvs_po_token_policy := tvSimplyGvsPoTokenPolicy,
    player_po_token_policy := .defaultPolicy,
    subs_po_token_policy := .defaultPolicy,
    priority := 0 }

def tvEmbeddedClient : InnerTubeClient :=
  { innertube_context_client :=
      [("clientName", .str "TVHTML5_SIMPLY_EMBEDDED_PLAYER"),
       ("clientVersion", .str "2.0"), ("hl", .str PREFERRED_LOCALE)],
    has_third_party_embed_url := false,
    innertube_host := DEFAULT_INNERTUBE_HOST,
    innertube_context_client_name := 85,
    supports_cookies := true,
    require_js_player := true,
    require_auth := true,
    authenticated_user_agent := none,
    gvs_po_token_policy := create_default_gvs_po_token_policy,
    player_po_token_policy := .defaultPolicy,
    subs_po_token_policy := .defaultPolicy,
    priority := 0 }

/-- The insertion sequence of the `INNERTUBE_CLIENTS` initializer
(src/extractor/client.rs lines 58-523), in source order. The entry holding the
TVHTML5_SIMPLY profile (source lines 483-498) is inserted under the key
`YtClient::Tv`, exactly as the source writes it. -/
def INNERTUBE_CLIENTS_inserts : List (YtClient × InnerTubeClient) :=
  let m : List (YtClient × InnerTubeClient) := []
  let m := mapInsert m .Web webClient
  let m := mapInsert m .WebSafari webSafariClient
  let m := mapInsert m .WebEmbedded webEmbeddedClient
  let m := mapInsert m .WebMusic webMusicClient
  let m := mapInsert m .WebCreator webCreatorClient
  let m := mapInsert m .Android androidClient
  let m := mapInsert m .AndroidSdkless androidSdklessClient
  let m := mapInsert m .AndroidVr androidVrClient
  let m := mapInsert m .IOS iosClient
  let m := mapInsert m .MWeb mwebClient
  let m := mapInsert m .Tv tvClient
  let m := mapInsert m .Tv tvSimplyClient
  let m := mapInsert m .TvEmbedded tvEmbeddedClient
  m

def BASE_CLIENTS : List String := ["android", "mweb", "tv", "web", "ios"]

def base_client_indices : List (String × Int) :=
  BASE_CLIENTS.enum.map (fun p => (p.2, (p.1 : Int)))

/-- The post-insertion build loop of the registry initializer
(src/extractor/client.rs lines 529-545): derives each entry's priority from
the base-client index and injects `thirdParty.embedUrl` for embedded
variants. -/
def apply_registry_build (yt_client : YtClient) (ytcfg : InnerTubeClient) :
    InnerTubeClient :=
  let priority_index : Int :=
    10 * ((mapLookup base_client_indices yt_client.get_base).getD (-1))
  if yt_client.get_variant = "embedded" then
    { ytcfg with has_third_party_embed_url := true, priority := priority_index - 2 }
  else
    { ytcfg with priority := priority_index - 3 }

/-- Model of the `INNERTUBE_CLIENTS` registry (src/extractor/client.rs lines
58-548): the insert sequence followed by the build loop. It is a `Lazy` static
in the source: built once on first access and immutable afterwards, which the
embedding reflects by being a plain constant. -/
def INNERTUBE_CLIENTS : List (YtClient × InnerTubeClient) :=
  INNERTUBE_CLIENTS_inserts.map (fun e => (e.1, apply_registry_build e.1 e.2))

/-- C2: the claim states that all thirteen `YtClient` variants, `TvSimply`
included, have an entry in `INNERTUBE_CLIENTS`. On the code, the entry holding
the TVHTML5_SIMPLY profile is inserted under the key `YtClient::Tv`, so it
overwrites the TVHTML5 profile of `Tv` and `TvSimply` has no entry at all:
the lookup for `TvSimply` returns `none`, the `Tv` entry now carries
`clientName = "TVHTML5_SIMPLY"`, and only the other twelve lookups succeed. -/
theorem C2_registry_lookup_tv_simply_none :
    mapLookup INNERTUBE_CLIENTS YtClient.TvSimply = none ∧
    (mapLookup INNERTUBE_CLIENTS YtClient.Tv).map
      (fun cfg => mapLookup cfg.innertube_context_client "clientName")
      = some (some (.str "TVHTML5_SIMPLY")) ∧
    ([.Web, .WebSafari, .WebEmbedded, .WebMusic, .WebCreator, .Android,
      .AndroidSdkless, .AndroidVr, .IOS, .MWeb, .Tv, .TvEmbedded] : List YtClient).all
      (fun c => (mapLookup INNERTUBE_CLIENTS c).isSome) = true := by
  refine ⟨?_, ?_, ?_⟩ <;> rfl

/-- Substring containment, model of Rust `str::contains(&str)`. -/
def containsSub (pat : List Char) : List Char → Bool
  | [] => pat.isEmpty
  | c :: t => pat.isPrefixOf (c :: t) || containsSub pat t

def rust_str_contains (hay pat : String) : Bool :=
  containsSub pat.data hay.data

/-- JSON values as used by the player-response checks (serde_json `Value`). -/
inductive JsonVal
  | null
  | bool (b : Bool)
  | num (n : Int)
  | str (s : String)
  | arr (elements : List JsonVal)
  | obj (fields : List (String × JsonVal))

/-- Model of `Value::get` on objects composed with `Value::as_object`. -/
def JsonVal.getField : JsonVal → String → Option JsonVal
  | .obj fields, k => mapLookup fields k
  | _, _ => none

def JsonVal.asArr? : JsonVal → Option (List JsonVal)
  | .arr xs => some xs
  | _ => none

def JsonVal.asStr? : JsonVal → Option String
  | .str s => some s
  | _ => none

/-- A player response is a `HashMap<String, Value>` in the source. -/
def PlayerResponse : Type := List (String × JsonVal)

def AGE_GATE_REASONS : List String :=
  ["confirm your age", "age-restricted", "inappropriate",
   "age_verification_required", "age_check_required"]

/-- Model of `is_age_gated` (src/extractor/player.rs lines 145-186):
`playabilityStatus.desktopLegacyAgeGateReason` present, or any string of
`playabilityStatus.status.reason` containing one of the five age-gate
markers. -/
def is_age_gated (player_response : PlayerResponse) : Bool :=
  if (((mapLookup player_response "playabilityStatus").bind
        (fun ps => ps.getField "desktopLegacyAgeGateReason")).isSome) then
    true
  else
    let reasons_array : List JsonVal :=
      (((((mapLookup player_response "playabilityStatus").bind
        (fun ps => ps.getField "status")).bind
        (fun s => s.getField "reason")).bind JsonVal.asArr?).getD [])
    let reasons : List String := reasons_array.map (fun x => (x.asStr?).getD "")
    AGE_GATE_REASONS.any (fun expected =>
      reasons.any (fun reason => rust_str_contains reason expected))

/-- Model of the age-gate fallback scheduling statement of
`extract_player_responses` (src/extractor/player.rs lines 494-497): push
`WebEmbedded` onto the working list when the response is age-gated and the
current client's variant differs from the string `"web_embedded"`. -/
def push_web_embedded_on_age_gate (popped_client : YtClient)
    (player_response : PlayerResponse) (actual_clients : List YtClient) :
    List YtClient :=
  let variant := popped_client.get_variant
  if is_age_gated player_response && (variant != "web_embedded") then
    actual_clients ++ [YtClient.WebEmbedded]
  else
    actual_clients

/-- Age-gated player response used as the concrete failing input:
`playabilityStatus.desktopLegacyAgeGateReason = 1` (spec section 8,
scenario 6). -/
def ageGatedResponse : PlayerResponse :=
  [("playabilityStatus", .obj [("desktopLegacyAgeGateReason", .num 1)])]

/-- C3: the claim states that a client whose variant is `embedded` (such as
WebEmbedded itself) does NOT get `WebEmbedded` appended on an age-gated
response. On the code, the guard compares the variant against the full client
name `"web_embedded"`, but `get_variant` of WebEmbedded is `"embedded"`, so
the guard is true for every client and `WebEmbedded` is appended even when the
current client is WebEmbedded itself (re-queueing it forever for anonymous
age-gated videos). The non-embedded case (e.g. Web) appends as claimed. -/
theorem C3_age_gate_appends_web_embedded_for_embedded_client :
    is_age_gated ageGatedResponse = true ∧
    YtClient.get_variant .WebEmbedded = "embedded" ∧
    push_web_embedded_on_age_gate .WebEmbedded ageGatedResponse [] = [.WebEmbedded] ∧
    push_web_embedded_on_age_gate .Web ageGatedResponse [] = [.WebEmbedded] := by
  refine ⟨?_, ?_, ?_, ?_⟩ <;> rfl

/-- Model of Rust `char::is_ascii_alphanumeric`. -/
def is_ascii_alphanumeric (c : Char) : Bool :=
  (decide (0x41 ≤ c.toNat) && decide (c.toNat ≤ 0x5A)) ||
  (decide (0x61 ≤ c.toNat) && decide (c.toNat ≤ 0x7A)) ||
  (decide (0x30 ≤ c.toNat) && decide (c.toNat ≤ 0x39))

/-- The character predicate of `VideoId::new`
(src/yt_interface.rs lines 171-174): ASCII alphanumeric, `-`, or `_`. -/
def valid_video_id_char (c : Char) : Bool :=
  is_ascii_alphanumeric c || c == '-' || c == '_'

/-- Number of bytes of the UTF-8 encoding of a character; Rust `String::len`
counts bytes, not characters. -/
def char_utf8_size (c : Char) : Nat :=
  if c.toNat ≤ 0x7F then 1
  else if c.toNat ≤ 0x7FF then 2
  else if c.toNat ≤ 0xFFFF then 3
  else 4

/-- Model of Rust `String::len`: the UTF-8 byte count. -/
def rust_str_len (s : String) : Nat :=
  (s.data.map char_utf8_size).sum

/-- Model of `VideoId::new` (src/yt_interface.rs lines 161-179): byte length
must be 11 and every character ASCII alphanumeric, `-` or `_`; either failure
is a construction error. -/
def videoId_new (s : String) : Except String String :=
  if rust_str_len s ≠ 11 then
    .error ("invalid length: expected 11 characters, got " ++ toString (rust_str_len s))
  else if !(s.data.all valid_video_id_char) then
    .error ("invalid characters in video ID: " ++ s)
  else
    .ok s

theorem valid_char_utf8_size_one (c : Char) (h : valid_video_id_char c = true) :
    char_utf8_size c = 1 := by
  have hle : c.toNat ≤ 0x7F := by
    unfold valid_video_id_char is_ascii_alphanumeric at h
    simp only [Bool.or_eq_true, Bool.and_eq_true, decide_eq_true_eq, beq_iff_eq] at h
    rcases h with (((⟨_, h2⟩ | ⟨_, h2⟩) | ⟨_, h2⟩) | rfl) | rfl
    · omega
    · omega
    · omega
    · decide
    · decide
  unfold char_utf8_size
  rw [if_pos hle]

theorem valid_chars_utf8_len (l : List Char)
    (h : ∀ c ∈ l, valid_video_id_char c = true) :
    (l.map char_utf8_size).sum = l.length := by
  induction l with
  | nil => rfl
  | cons c t ih =>
      have hc := valid_char_utf8_size_one c (h c (by simp))
      have ht := ih (fun x hx => h x (by simp [hx]))
      simp only [List.map_cons, List.sum_cons, List.length_cons, hc, ht]
      omega

theorem exceptIsOkError (e : String) :
    (Except.error e : Except String String).isOk = false := rfl

/-- C8: for all strings `s`, `VideoId::new(s)` succeeds if and only if `s` has
length 11 and every character of `s` is ASCII alphanumeric, `-` or `_` (for
such strings the byte length the code checks coincides with the character
count); in particular `"UWn9RdueB7E"` is accepted and `"too_short"` is
rejected with a construction error. -/
theorem C8_video_id_validity :
    (∀ s : String, (videoId_new s).isOk = true ↔
      (s.length = 11 ∧ ∀ c ∈ s.data, valid_video_id_char c = true)) ∧
    videoId_new "UWn9RdueB7E" = .ok "UWn9RdueB7E" ∧
    (videoId_new "too_short").isOk = false := by
  refine ⟨?_, by rfl, by rfl⟩
  intro s
  constructor
  · intro h
    unfold videoId_new at h
    by_cases h1 : rust_str_len s = 11
    · rw [if_neg (fun hn => hn h1)] at h
      by_cases h2 : s.data.all valid_video_id_char = true
      · have hvalid : ∀ c ∈ s.data, valid_video_id_char c = true := by
          simpa using h2
        refine ⟨?_, hvalid⟩
        have hsum := valid_chars_utf8_len s.data hvalid
        unfold rust_str_len at h1
        rw [hsum] at h1
        exact h1
      · have hall : s.data.all valid_video_id_char = false := by
          cases hx : s.data.all valid_video_id_char
          · rfl
          · exact absurd hx h2
        rw [if_pos (by rw [hall]; rfl), exceptIsOkError] at h
        exact absurd h (by decide)
    · rw [if_pos h1, exceptIsOkError] at h
      exact absurd h (by decide)
  · rintro ⟨hlen, hvalid⟩
    have hsum := valid_chars_utf8_len s.data hvalid
    have h1 : rust_str_len s = 11 := by
      unfold rust_str_len
      rw [hsum]
      exact hlen
    have h2 : s.data.all valid_video_id_char = true := by
      simpa using hvalid
    have hcond : ¬((!(s.data.all valid_video_id_char)) = true) := by
      rw [h2]; decide
    unfold videoId_new
    rw [if_neg (fun hn => hn h1), if_neg hcond]
    rfl

def isHexDigitChar (c : Char) : Bool :=
  (decide (48 ≤ c.toNat) && decide (c.toNat ≤ 57)) ||
  (decide (65 ≤ c.toNat) && decide (c.toNat ≤ 70)) ||
  (decide (97 ≤ c.toNat) && decide (c.toNat ≤ 102))

def hexVal (c : Char) : Nat :=
  if c.toNat ≤ 57 then c.toNat - 48
  else if c.toNat ≤ 70 then c.toNat - 55
  else c.toNat - 87

/-- Percent-decoding as done by `form_urlencoded`: a `%` followed by two hex
digits becomes the denoted byte, anything else passes through. The model maps
each decoded byte directly to the code point of the same value; the claims are
settled on ASCII inputs, where this agrees with the UTF-8 reassembly the
`url` crate performs. -/
def percentDecodeAux : List Char → List Char
  | [] => []
  | '%' :: a :: b :: rest =>
      if isHexDigitChar a && isHexDigitChar b then
        Char.ofNat (16 * hexVal a + hexVal b) :: percentDecodeAux rest
      else
        '%' :: percentDecodeAux (a :: b :: rest)
  | c :: rest => c :: percentDecodeAux rest

def plusToSpace (c : Char) : Char :=
  if c = '+' then ' ' else c

def form_decode_component (piece : List Char) : String :=
  String.mk (percentDecodeAux (piece.map plusToSpace))

def splitListOnAux (sep : Char) : List Char → List Char → List (List Char)
  | [], acc => [acc.reverse]
  | c :: rest, acc =>
      if c = sep then acc.reverse :: splitListOnAux sep rest []
      else splitListOnAux sep rest (c :: acc)

def splitListOn (sep : Char) (l : List Char) : List (List Char) :=
  splitListOnAux sep l []

def splitFirstEqAux : List Char → List Char → List Char × List Char
  | [], acc => (acc.reverse, [])
  | c :: rest, acc =>
      if c = '=' then (acc.reverse, rest) else splitFirstEqAux rest (c :: acc)

/-- Model of `parse_query_string` (src/utils.rs lines 9-11):
`form_urlencoded::parse` splits on `&` (skipping empty pieces), splits each
piece at the first `=` (missing value becomes the empty string), decodes `+`
to space and percent-escapes in both components. The `catch_unwind` wrapper in
the source never fires, so the `Option` layer is dropped here. -/
def parse_query_string (qs : String) : List (String × String) :=
  ((splitListOn '&' qs.data).filter (fun piece => !piece.isEmpty)).map (fun piece =>
    let p := splitFirstEqAux piece []
    (form_decode_component p.1, form_decode_component p.2))

/-- Model of `.collect::<HashMap<String, String>>()` over the parsed pairs:
later pairs overwrite earlier ones with the same key. -/
def collect_hashmap (pairs : List (String × String)) : List (String × String) :=
  pairs.foldl (fun m kv => mapInsert m kv.1 kv.2) []

def asciiAlpha (c : Char) : Bool :=
  (decide (65 ≤ c.toNat) && decide (c.toNat ≤ 90)) ||
  (decide (97 ≤ c.toNat) && decide (c.toNat ≤ 122))

/-- Parsed components of an absolute URL as used by `url::Url` for the http(s)
URLs this code handles. -/
structure UrlParts where
  scheme : String
  authority : String
  path : String
  query : Option String
  fragment : Option String
deriving DecidableEq

/-- Simplified model of `url::Url::parse` for absolute http(s)-style URLs:
`<scheme>://<authority><path>[?<query>][#<fragment>]`, with the empty path
normalized to `/` as the crate does for special schemes. Percent-normalization
performed by the crate is identity on the inputs the claims use. -/
def parse_url (s : String) : Option UrlParts :=
  match splitOnceSub s "://" with
  | none => none
  | some (scheme, rest) =>
      if scheme.data.isEmpty || !(scheme.data.all asciiAlpha) then none
      else
        let restL := rest.data
        let authority := restL.takeWhile (fun c => c != '/' && c != '?' && c != '#')
        if authority.isEmpty then none
        else
          let after := restL.drop authority.length
          let pathPart := after.takeWhile (fun c => c != '?' && c != '#')
          let path := if pathPart.isEmpty then "/" else String.mk pathPart
          let after2 := after.drop pathPart.length
          match after2 with
          | '?' :: qrest =>
              let q := qrest.takeWhile (fun c => c != '#')
              let after3 := qrest.drop q.length
              some ⟨scheme, String.mk authority, path, some (String.mk q),
                match after3 with
                | '#' :: f => some (String.mk f)
                | _ => none⟩
          | '#' :: f => some ⟨scheme, String.mk authority, path, none, some (String.mk f)⟩
          | _ => some ⟨scheme, String.mk authority, path, none, none⟩

/-- Model of `url::Url::to_string` over the parsed components. -/
def serialize_url (u : UrlParts) : String :=
  u.scheme ++ "://" ++ u.authority ++ u.path ++
  (match u.query with
   | some q => "?" ++ q
   | none => "") ++
  (match u.fragment with
   | some f => "#" ++ f
   | none => "")

/-- Spec-side reading of "the URL's query contains `n`": parse the URL, parse
its query component as a form, collect and look the key up. -/
def url_query_value (s : String) (k : String) : Option String :=
  (parse_url s).bind (fun u =>
    mapLookup (collect_hashmap (parse_query_string (u.query.getD ""))) k)

def charListLtB : List Char → List Char → Bool
  | [], [] => false
  | [], _ :: _ => true
  | _ :: _, [] => false
  | a :: as, b :: bs =>
      if a.toNat < b.toNat then true
      else if b.toNat < a.toNat then false
      else charListLtB as bs

/-- Lexicographic string comparison (computable order used only to fix the
modeled `HashMap` iteration order). -/
def strLtB (a b : String) : Bool := charListLtB a.data b.data

def insert_sorted (p : String × String) :
    List (String × String) → List (String × String)
  | [] => [p]
  | q :: t => if strLtB q.1 p.1 then q :: insert_sorted p t else p :: q :: t

/-- The iteration order of `HashMap` is unspecified; the model fixes one
arbitrary order — sorted by key — for the re-serialization step of
`replace_n_sig_query_param`. The properties proved about the result are
independent of this choice (they go through `mapLookup`, which any
permutation of a key-distinct list preserves). -/
def sort_by_key (l : List (String × String)) : List (String × String) :=
  l.foldr insert_sorted []

theorem mem_keys_insert_sorted (p : String × String) (l : List (String × String))
    (x : String) :
    x ∈ (insert_sorted p l).map (fun e => e.1) ↔
      x = p.1 ∨ x ∈ l.map (fun e => e.1) := by
  induction l with
  | nil => simp [insert_sorted]
  | cons q t ih =>
      unfold insert_sorted
      by_cases h : strLtB q.1 p.1 = true
      · rw [if_pos h]
        simp only [List.map_cons, List.mem_cons]
        rw [ih]
        tauto
      · rw [if_neg h]
        simp only [List.map_cons, List.mem_cons]

theorem mapLookup_insert_sorted (p : String × String) (l : List (String × String))
    (k : String) (hp : p.1 ∉ l.map (fun e => e.1)) :
    mapLookup (insert_sorted p l) k =
      if p.1 = k then some p.2 else mapLookup l k := by
  induction l with
  | nil => simp [insert_sorted, mapLookup]
  | cons q t ih =>
      have hq : p.1 ≠ q.1 := by
        intro hh
        exact hp (by simp [hh])
      have ht : p.1 ∉ t.map (fun e => e.1) := by
        intro hh
        exact hp (by simp [hh])
      unfold insert_sorted
      by_cases h : strLtB q.1 p.1 = true
      · rw [if_pos h]
        by_cases hk : q.1 = k
        · have hpk : p.1 ≠ k := by
            rw [← hk]
            exact hq
          simp [mapLookup, hk, hpk]
        · simp [mapLookup, hk, ih ht]
      · rw [if_neg h]
        by_cases hk : p.1 = k
        · simp [mapLookup, hk]
        · simp [mapLookup, hk]

theorem mem_keys_sort_by_key (l : List (String × String)) (x : String) :
    x ∈ (sort_by_key l).map (fun e => e.1) ↔ x ∈ l.map (fun e => e.1) := by
  induction l with
  | nil => simp [sort_by_key]
  | cons p t ih =>
      show x ∈ (insert_sorted p (sort_by_key t)).map (fun e => e.1) ↔ _
      rw [mem_keys_insert_sorted]
      simp [ih]

theorem mapLookup_sort_by_key (l : List (String × String)) (k : String)
    (h : (l.map (fun e => e.1)).Nodup) :
    mapLookup (sort_by_key l) k = mapLookup l k := by
  induction l with
  | nil => rfl
  | cons p t ih =>
      have hp : p.1 ∉ t.map (fun e => e.1) := by
        simp only [List.map_cons, List.nodup_cons] at h
        exact h.1
      have ht : (t.map (fun e => e.1)).Nodup := by
        simp only [List.map_cons, List.nodup_cons] at h
        exact h.2
      have hps : p.1 ∉ (sort_by_key t).map (fun e => e.1) := by
        rw [mem_keys_sort_by_key]
        exact hp
      show mapLookup (insert_sorted p (sort_by_key t)) k = _
      rw [mapLookup_insert_sorted p (sort_by_key t) k hps, ih ht]
      simp [mapLookup]

theorem mem_keys_mapInsert {V : Type} (m : List (String × V)) (k : String) (v : V)
    (x : String) :
    x ∈ (mapInsert m k v).map (fun e => e.1) ↔ x = k ∨ x ∈ m.map (fun e => e.1) := by
  induction m with
  | nil => simp [mapInsert]
  | cons q t ih =>
      unfold mapInsert
      by_cases h : q.1 = k
      · rw [if_pos h]
        subst h
        simp only [List.map_cons, List.mem_cons]
        tauto
      · rw [if_neg h]
        simp only [List.map_cons, List.mem_cons]
        rw [ih]
        tauto

theorem nodup_keys_mapInsert {V : Type} (m : List (String × V)) (k : String) (v : V)
    (h : (m.map (fun e => e.1)).Nodup) :
    ((mapInsert m k v).map (fun e => e.1)).Nodup := by
  induction m with
  | nil => simp [mapInsert]
  | cons q t ih =>
      simp only [List.map_cons, List.nodup_cons] at h
      unfold mapInsert
      by_cases hq : q.1 = k
      · rw [if_pos hq]
        subst hq
        simp only [List.map_cons, List.nodup_cons]
        exact ⟨h.1, h.2⟩
      · rw [if_neg hq]
        have := ih h.2
        simp only [List.map_cons, List.nodup_cons]
        refine ⟨?_, this⟩
        rw [mem_keys_mapInsert]
        rintro (hh | hh)
        · exact hq hh
        · exact h.1 hh

theorem nodup_keys_collect_hashmap (pairs : List (String × String)) :
    ((collect_hashmap pairs).map (fun e => e.1)).Nodup := by
  have main : ∀ (ps : List (String × String)) (m : List (String × String)),
      (m.map (fun e => e.1)).Nodup →
      ((ps.foldl (fun acc kv => mapInsert acc kv.1 kv.2) m).map (fun e => e.1)).Nodup := by
    intro ps
    induction ps with
    | nil => intro m hm; exact hm
    | cons p t ih =>
        intro m hm
        exact ih (mapInsert m p.1 p.2) (nodup_keys_mapInsert m p.1 p.2 hm)
  exact main pairs [] (by simp)

theorem mapLookup_eq_none_iff {K V : Type} [DecidableEq K]
    (m : List (K × V)) (k : K) :
    mapLookup m k = none ↔ k ∉ m.map (fun e => e.1) := by
  induction m with
  | nil => simp [mapLookup]
  | cons q t ih =>
      by_cases h : q.1 = k
      · simp [mapLookup, h]
      · have h2 : ¬k = q.1 := fun hh => h hh.symm
        simp [mapLookup, h, h2, ih]

theorem mem_keys_mapRemove {V : Type} (m : List (String × V)) (k : String)
    (x : String) :
    x ∈ (mapRemove m k).map (fun e => e.1) → x ∈ m.map (fun e => e.1) := by
  induction m with
  | nil => intro h; simp [mapRemove] at h
  | cons q t ih =>
      intro h
      unfold mapRemove at h
      by_cases hq : q.1 = k
      · rw [if_pos hq] at h
        simp only [List.map_cons, List.mem_cons]
        exact Or.inr h
      · rw [if_neg hq] at h
        simp only [List.map_cons, List.mem_cons] at h ⊢
        rcases h with h | h
        · exact Or.inl h
        · exact Or.inr (ih h)

theorem not_mem_keys_mapRemove_self {V : Type} (m : List (String × V)) (k : String)
    (h : (m.map (fun e => e.1)).Nodup) :
    k ∉ (mapRemove m k).map (fun e => e.1) := by
  induction m with
  | nil => simp [mapRemove]
  | cons q t ih =>
      simp only [List.map_cons, List.nodup_cons] at h
      unfold mapRemove
      by_cases hq : q.1 = k
      · rw [if_pos hq]
        rw [← hq]
        exact h.1
      · rw [if_neg hq]
        simp only [List.map_cons, List.mem_cons]
        rintro (hh | hh)
        · exact hq hh.symm
        · exact ih h.2 hh

theorem nodup_keys_mapRemove {V : Type} (m : List (String × V)) (k : String)
    (h : (m.map (fun e => e.1)).Nodup) :
    ((mapRemove m k).map (fun e => e.1)).Nodup := by
  induction m with
  | nil => simp [mapRemove]
  | cons q t ih =>
      simp only [List.map_cons, List.nodup_cons] at h
      unfold mapRemove
      by_cases hq : q.1 = k
      · rw [if_pos hq]
        exact h.2
      · rw [if_neg hq]
        simp only [List.map_cons, List.nodup_cons]
        exact ⟨fun hh => h.1 (mem_keys_mapRemove t k q.1 hh), ih h.2⟩

theorem mapLookup_mapRemove_self {V : Type} (m : List (String × V)) (k : String)
    (h : (m.map (fun e => e.1)).Nodup) :
    mapLookup (mapRemove m k) k = none :=
  (mapLookup_eq_none_iff (mapRemove m k) k).mpr (not_mem_keys_mapRemove_self m k h)

theorem mapLookup_mapRemove_ne {V : Type} (m : List (String × V)) (k k' : String)
    (h : k' ≠ k) :
    mapLookup (mapRemove m k) k' = mapLookup m k' := by
  induction m with
  | nil => rfl
  | cons q t ih =>
      unfold mapRemove
      by_cases hq : q.1 = k
      · rw [if_pos hq]
        have hqk : ¬q.1 = k' := by
          rw [hq]
          exact fun hh => h hh.symm
        simp [mapLookup, hqk]
      · rw [if_neg hq]
        by_cases hk : q.1 = k'
        · simp [mapLookup, hk]
        · simp [mapLookup, hk, ih]

/-- The query-pair rewrite of `replace_n_sig_query_param` (src/utils.rs lines
28-33): collect `url.query_pairs()` into a `HashMap`, `remove("n")` and, when
it was present, insert `("n", deciphered_n)`, then feed the map back to the
serializer (`clear().extend_pairs(...)`; the map iteration order is modeled by
`sort_by_key`). -/
def replace_n_query_pairs (query : String) (deciphered_n : String) :
    List (String × String) :=
  sort_by_key
    (match mapLookup (collect_hashmap (parse_query_string query)) "n" with
     | some _ =>
         mapInsert (mapRemove (collect_hashmap (parse_query_string query)) "n")
           "n" deciphered_n
     | none => collect_hashmap (parse_query_string query))

def serialize_query_pairs (ps : List (String × String)) : String :=
  String.intercalate "&" (ps.map (fun p => p.1 ++ "=" ++ p.2))

/-- Model of `replace_n_sig_query_param` (src/utils.rs lines 22-36): parse the
URL (propagating the parse error), rewrite the query pairs, serialize back. -/
def replace_n_sig_query_param (url_with_sig : String) (deciphered_n : String) :
    Except String String :=
  match parse_url url_with_sig with
  | none => .error "invalid URL"
  | some u =>
      .ok (serialize_url { u with
        query := some (serialize_query_pairs
          (replace_n_query_pairs (u.query.getD "") deciphered_n)) })

/-- C10: for a parseable URL whose query has distinct keys,
`replace_n_sig_query_param` replaces the value of `n` when present, never
introduces `n` when absent, and leaves every other key's mapping unchanged;
the emitted pair order comes from an unordered map, so the textual order of
the query is not preserved (both concrete URLs below come out re-ordered). -/
theorem C10_replace_n_frame :
    (∀ (q v k : String),
      ((parse_query_string q).map (fun e => e.1)).Nodup →
      ((mapLookup (collect_hashmap (parse_query_string q)) "n").isSome = true →
        mapLookup (replace_n_query_pairs q v) "n" = some v) ∧
      (mapLookup (collect_hashmap (parse_query_string q)) "n" = none →
        mapLookup (replace_n_query_pairs q v) "n" = none) ∧
      (k ≠ "n" → mapLookup (replace_n_query_pairs q v) k =
        mapLookup (collect_hashmap (parse_query_string q)) k)) ∧
    replace_n_sig_query_param "https://host/p?n=X&a=1" "Y"
      = .ok "https://host/p?a=1&n=Y" ∧
    replace_n_sig_query_param "https://host/p?b=2&a=1" "Y"
      = .ok "https://host/p?a=1&b=2" := by
  refine ⟨?_, rfl, rfl⟩
  intro q v k _
  have hm : ((collect_hashmap (parse_query_string q)).map (fun e => e.1)).Nodup :=
    nodup_keys_collect_hashmap (parse_query_string q)
  cases hn : mapLookup (collect_hashmap (parse_query_string q)) "n" with
  | none =>
      have hout : replace_n_query_pairs q v
          = sort_by_key (collect_hashmap (parse_query_string q)) := by
        unfold replace_n_query_pairs
        rw [hn]
      refine ⟨?_, ?_, ?_⟩
      · intro h
        simp at h
      · intro _
        rw [hout, mapLookup_sort_by_key _ _ hm]
        exact hn
      · intro _
        rw [hout]
        exact mapLookup_sort_by_key _ _ hm
  | some w =>
      have hrm := nodup_keys_mapRemove (collect_hashmap (parse_query_string q)) "n" hm
      have hins := nodup_keys_mapInsert
        (mapRemove (collect_hashmap (parse_query_string q)) "n") "n" v hrm
      have hout : replace_n_query_pairs q v
          = sort_by_key (mapInsert
              (mapRemove (collect_hashmap (parse_query_string q)) "n") "n" v) := by
        unfold replace_n_query_pairs
        rw [hn]
      refine ⟨?_, ?_, ?_⟩
      · intro _
        rw [hout, mapLookup_sort_by_key _ _ hins]
        exact mapLookup_mapInsert_self _ "n" v
      · intro h
        exact Option.noConfusion h
      · intro hk
        rw [hout, mapLookup_sort_by_key _ _ hins,
          mapLookup_mapInsert_ne _ "n" k v hk,
          mapLookup_mapRemove_ne _ "n" k hk]

/-- Witness for C10 at concrete inputs: the replaced key, an absent key, and
an untouched key. -/
theorem C10_replace_n_frame_witness :
    mapLookup (replace_n_query_pairs "n=X&a=1" "Y") "n" = some "Y" ∧
    mapLookup (replace_n_query_pairs "b=2&a=1" "Y") "n" = none ∧
    mapLookup (replace_n_query_pairs "n=X&a=1" "Y") "a"
      = mapLookup (collect_hashmap (parse_query_string "n=X&a=1")) "a" :=
  ⟨(C10_replace_n_frame.1 "n=X&a=1" "Y" "a" (by decide)).1 (by decide),
   (C10_replace_n_frame.1 "b=2&a=1" "Y" "a" (by decide)).2.1 (by decide),
   (C10_replace_n_frame.1 "n=X&a=1" "Y" "a" (by decide)).2.2 (by decide)⟩

/-- The `format!("{}&{}={}", fmt_url, sp_or_default, sig)` expression of
`decipher` (src/cipher/decipher.rs lines 113-118). -/
def url_with_sig_of (sc : List (String × String)) (fmt_url sig_value : String) :
    String :=
  fmt_url ++ "&" ++ ((mapLookup sc "sp").getD "signature") ++ "=" ++ sig_value

/-- Model of `decipher` (src/cipher/decipher.rs lines 100-133): parse the
signature query as a form, require `url` and `s`, decipher the signature,
append `&<sp>=<sig>` (sp defaulting to `"signature"`), then look for key `n`
by form-parsing the WHOLE partially assembled URL string; when found, decipher
it and rewrite the URL's `n` parameter. -/
def decipher (solver : SignatureType → String → String)
    (player_cache : CacheStore (String × String)) (signature : String)
    (player_url : String) : Except String String :=
  match mapLookup (collect_hashmap (parse_query_string signature)) "url",
        mapLookup (collect_hashmap (parse_query_string signature)) "s" with
  | some fmt_url, some encrypted_sig =>
      (fun d1 =>
        (fun url_with_sig =>
          match mapLookup (collect_hashmap (parse_query_string url_with_sig)) "n" with
          | some nsig =>
              replace_n_sig_query_param url_with_sig
                (decrypt_signature solver d1.player_cache .nsignature nsig
                  player_url).value
          | none => Except.ok url_with_sig)
        (url_with_sig_of (collect_hashmap (parse_query_string signature))
          fmt_url d1.value))
      (decrypt_signature solver player_cache .signature encrypted_sig player_url)
  | _, _ =>
      .error "The provided signature cannot be deciphered because it is missing `url`."

/-- Concrete solver used for the closed evaluations below (stands in for a
successful JS solver run). -/
def testSolver : SignatureType → String → String := fun _ s => "DEC" ++ s

/-- C7 counterexample: the claim says that whenever the resulting URL's query
contains `n`, its value is replaced by the deciphered n-value. For the input
`s=AAA&url=https%3A//host/p%3Fn%3DX` the signed URL is
`https://host/p?n=X&signature=DECAAA`, whose query DOES contain `n` (value
`X`), yet `decipher` returns it untouched: the code looks `n` up by
form-parsing the whole URL string, where the first query parameter is glued to
the host-and-path piece (`https://host/p?n`), so an `n` in first query
position is never found, and the deciphered n-value `DECX` is never
substituted. -/
theorem C7_first_query_param_n_not_replaced :
    decipher testSolver [] "s=AAA&url=https%3A//host/p%3Fn%3DX" "https://purl"
      = .ok "https://host/p?n=X&signature=DECAAA" ∧
    url_query_value "https://host/p?n=X&signature=DECAAA" "n" = some "X" ∧
    testSolver .nsignature "X" = "DECX" ∧
    url_query_value "https://host/p?n=X&signature=DECAAA" "n" ≠ some "DECX" := by
  refine ⟨rfl, rfl, rfl, ?_⟩
  intro h
  rw [show url_query_value "https://host/p?n=X&signature=DECAAA" "n" = some "X"
    from rfl] at h
  simp at h

/-- C7 (amended): `decipher` fails when key `url` or key `s` is missing from
the parsed form; otherwise it returns `<url>&<sp>=<deciphered sig>` with `sp`
defaulting to `"signature"`, and when form-parsing that whole string (split on
`&`, each piece on its first `=`) yields a key `n` — which misses an `n` in
first query position — the URL's `n` value is replaced with the deciphered
n-value; otherwise the signed URL is returned unchanged. -/
theorem C7_decipher_form_parse (solver : SignatureType → String → String)
    (pc : CacheStore (String × String)) (sigq purl : String) :
    ((mapLookup (collect_hashmap (parse_query_string sigq)) "url" = none ∨
      mapLookup (collect_hashmap (parse_query_string sigq)) "s" = none) →
      decipher solver pc sigq purl =
        .error "The provided signature cannot be deciphered because it is missing `url`.") ∧
    (∀ fmt_url encrypted_sig uws,
      mapLookup (collect_hashmap (parse_query_string sigq)) "url" = some fmt_url →
      mapLookup (collect_hashmap (parse_query_string sigq)) "s" = some encrypted_sig →
      uws = url_with_sig_of (collect_hashmap (parse_query_string sigq)) fmt_url
        (decrypt_signature solver pc .signature encrypted_sig purl).value →
      (mapLookup (collect_hashmap (parse_query_string uws)) "n" = none →
        decipher solver pc sigq purl = .ok uws) ∧
      (∀ nsig,
        mapLookup (collect_hashmap (parse_query_string uws)) "n" = some nsig →
        decipher solver pc sigq purl =
          replace_n_sig_query_param uws
            (decrypt_signature solver pc .nsignature nsig purl).value)) := by
  constructor
  · intro h
    unfold decipher
    rcases h with h | h
    · rw [h]
    · rw [h]
      cases mapLookup (collect_hashmap (parse_query_string sigq)) "url" <;> rfl
  · intro fmt_url encrypted_sig uws hu hs huws
    have hcache :
        (decrypt_signature solver pc .signature encrypted_sig purl).player_cache
          = pc :=
      decrypt_signature_cache_unchanged solver pc .signature encrypted_sig purl
    constructor
    · intro hn
      unfold decipher
      rw [hu, hs]
      simp only [← huws, hn]
    · intro nsig hn
      unfold decipher
      rw [hu, hs]
      simp only [← huws, hn, hcache]

/-- Witness for C7 at concrete inputs: the missing-key error and the plain
composition (spec section 8, scenario 4). -/
theorem C7_decipher_form_parse_witness :
    decipher testSolver [] "abc" "https://purl"
      = .error "The provided signature cannot be deciphered because it is missing `url`." ∧
    decipher testSolver [] "s=AAA&sp=sig&url=https%3A//host/p" "https://purl"
      = .ok "https://host/p&sig=DECAAA" :=
  ⟨(C7_decipher_form_parse testSolver [] "abc" "https://purl").1 (Or.inl rfl),
   ((C7_decipher_form_parse testSolver [] "s=AAA&sp=sig&url=https%3A//host/p"
      "https://purl").2 "https://host/p" "AAA" "https://host/p&sig=DECAAA"
      rfl rfl rfl).1 rfl⟩

/-- The regex character class `[a-zA-Z0-9_-]` of the player-id patterns
(src/cache.rs lines 61-65). -/
def player_id_char (c : Char) : Bool :=
  is_ascii_alphanumeric c || c == '_' || c == '-'

def asciiLower (c : Char) : Bool :=
  decide (97 ≤ c.toNat) && decide (c.toNat ≤ 122)

def asciiUpper (c : Char) : Bool :=
  decide (65 ≤ c.toNat) && decide (c.toNat ≤ 90)

/-- The regex word-character class `\w` = `[A-Za-z0-9_]`. -/
def word_char (c : Char) : Bool :=
  is_ascii_alphanumeric c || c == '_'

def word_char_opt : Option Char → Bool
  | some c => word_char c
  | none => false

/-- Generic leftmost scan: try the matcher at every suffix, leftmost start
first (regex search semantics). -/
def scanSuffixes (f : List Char → Option String) : List Char → Option String
  | [] => f []
  | c :: t =>
      match f (c :: t) with
      | some r => some r
      | none => scanSuffixes f t

/-- Attempt of regex 1, `/s/player/(?P<id>[a-zA-Z0-9_-]{8,})/(?:tv-)?player`,
anchored at the current position. The id class excludes `/`, so the greedy
`{8,}` run is exactly the maximal `player_id_char` run and no backtracking
into it is possible. -/
def re1_at (l : List Char) : Option String :=
  if "/s/player/".data.isPrefixOf l then
    (fun rest =>
      (fun run =>
        if 8 ≤ run.length then
          (fun after =>
            if "/player".data.isPrefixOf after || "/tv-player".data.isPrefixOf after then
              some (String.mk run)
            else none)
          (rest.drop run.length)
        else none)
      (rest.takeWhile player_id_char))
    (l.drop 10)
  else none

def match_re1 (s : String) : Option String :=
  scanSuffixes re1_at s.data

/-- Tail of regex 2 after `player_ias`-style matches: the literal
`_ias\.vflset` followed by either `/base\.js` at the end of input, or the
optional language group `/[a-zA-Z]{2,3}_[a-zA-Z]{2,3}` and then `/base\.js`
at the end. The `{2,3}` runs are delimited by the non-alpha `_` and `/`, so
the greedy bounded repetitions reduce to exact run-length checks. -/
def re2_lang_tail (l : List Char) : Bool :=
  (l == "/base.js".data) ||
  (match l with
   | '/' :: rest =>
       (fun a =>
         ((a.length == 2 || a.length == 3) &&
           (match rest.drop a.length with
            | '_' :: rest2 =>
                (fun b =>
                  ((b.length == 2 || b.length == 3) &&
                    (rest2.drop b.length == "/base.js".data)))
                (rest2.takeWhile asciiAlpha)
            | _ => false)))
       (rest.takeWhile asciiAlpha)
   | _ => false)

/-- Tail of regex 2 for the plasma alternative:
`-plasma-ias-(?:phone|tablet)-[a-z]{2}_[A-Z]{2}\.vflset` then `/base\.js` at
the end of input. -/
def re2_plasma_tail (l : List Char) : Bool :=
  if "-plasma-ias-".data.isPrefixOf l then
    (fun rest =>
      (fun rest2opt =>
        match rest2opt with
        | none => false
        | some rest2 =>
            match rest2 with
            | c1 :: c2 :: '_' :: d1 :: d2 :: tail =>
                asciiLower c1 && asciiLower c2 && asciiUpper d1 && asciiUpper d2 &&
                (tail == ".vflset/base.js".data)
            | _ => false)
      (if "phone-".data.isPrefixOf rest then some (rest.drop 6)
       else if "tablet-".data.isPrefixOf rest then some (rest.drop 7)
       else none))
    (l.drop 12)
  else false

/-- Attempt of regex 2,
`/(?P<id>[a-zA-Z0-9_-]{8,})/player(?:_ias\.vflset(?:/[a-zA-Z]{2,3}_[a-zA-Z]{2,3})?|-plasma-ias-(?:phone|tablet)-[a-z]{2}_[A-Z]{2}\.vflset)/base\.js$`,
anchored at the current position. -/
def re2_at (l : List Char) : Option String :=
  match l with
  | '/' :: rest =>
      (fun run =>
        if 8 ≤ run.length then
          (fun after =>
            if "/player".data.isPrefixOf after then
              (fun tail =>
                if ("_ias.vflset".data.isPrefixOf tail && re2_lang_tail (tail.drop 11)) ||
                   re2_plasma_tail tail then
                  some (String.mk run)
                else none)
              (after.drop 7)
            else none)
          (rest.drop run.length)
        else none)
      (rest.takeWhile player_id_char)
  | _ => none

def match_re2 (s : String) : Option String :=
  scanSuffixes re2_at s.data

/-- The `.*?\.js$` tail of regex 3: the remainder must end in `.js` with no
newline before it (`.` does not match newlines). -/
def re3_rest_ok (r : List Char) : Bool :=
  ("sj.".data.isPrefixOf r.reverse) &&
  !((r.take (r.length - 3)).contains '\n')

/-- Backtracking over the greedy `[a-zA-Z0-9_-]+` continuation run of regex 3:
try the longest take first (greedy), requiring the trailing `\b` at the cut
and the `.*?\.js$` tail on the remainder. -/
def re3_down (rest run : List Char) : Nat → Option String
  | 0 => none
  | k + 1 =>
      (fun idTail =>
        (fun cut =>
          match idTail.getLast? with
          | none => none
          | some last =>
              if (word_char last != word_char_opt cut.head?) && re3_rest_ok cut then
                some (String.mk ('v' :: 'f' :: 'l' :: idTail))
              else re3_down rest run k)
        (rest.drop (k + 1)))
      (run.take (k + 1))

/-- Attempt of regex 3, `\b(?P<id>vfl[a-zA-Z0-9_-]+)\b.*?\.js$`, anchored at
the current position; `prevWord` tells whether the preceding character is a
word character (the leading `\b` before the word character `v`). -/
def re3_at (prevWord : Bool) (l : List Char) : Option String :=
  if prevWord then none
  else if "vfl".data.isPrefixOf l then
    (fun rest =>
      (fun run => re3_down rest run run.length)
      (rest.takeWhile player_id_char))
    (l.drop 3)
  else none

def re3_scan (prev : Option Char) : List Char → Option String
  | [] => none
  | c :: t =>
      match re3_at (word_char_opt prev) (c :: t) with
      | some r => some r
      | none => re3_scan (some c) t

def match_re3 (s : String) : Option String :=
  re3_scan none s.data

inductive PlayerKeyError
  | playerIdentificationFailed (url : String)
  | urlParseFailed (url : String)
deriving DecidableEq

/-- Model of `extract_player_info` (src/cache.rs lines 60-77): the three
player-id regexes tried in order, first match wins; failure of all three is
the identification error. -/
def extract_player_info (player_url : String) : Except PlayerKeyError String :=
  match match_re1 player_url with
  | some id => .ok id
  | none =>
      match match_re2 player_url with
      | some id => .ok id
      | none =>
          match match_re3 player_url with
          | some id => .ok id
          | none => .error (.playerIdentificationFailed player_url)

/-- Model of `get_player_id_and_path` (src/cache.rs lines 79-84). -/
def get_player_id_and_path (player_url : String) :
    Except PlayerKeyError (String × String) :=
  match extract_player_info player_url with
  | .error e => .error e
  | .ok player_id =>
      match parse_url player_url with
      | none => .error (.urlParseFailed player_url)
      | some u => .ok (player_id, u.path)

/-- Model of `player_js_cache_key` (src/cache.rs lines 86-95):
`player_id ++ "-" ++ url_path`. -/
def player_js_cache_key (player_url : String) : Except PlayerKeyError String :=
  match get_player_id_and_path player_url with
  | .error e => .error e
  | .ok p => .ok (p.1 ++ "-" ++ p.2)

/-- C9: `player_js_cache_key` is a pure function of the player URL built from
the first matching of the three id regexes and the URL path: on the spec's
example URL it returns exactly the claimed key, when all three regexes fail it
returns the identification error, and equal inputs give equal outputs. -/
theorem C9_player_js_cache_key_spec :
    player_js_cache_key
        "https://www.youtube.com/s/player/abcd1234/player_ias.vflset/en_US/base.js"
      = .ok "abcd1234-/s/player/abcd1234/player_ias.vflset/en_US/base.js" ∧
    (∀ url : String, match_re1 url = none → match_re2 url = none →
      match_re3 url = none →
      player_js_cache_key url = .error (.playerIdentificationFailed url)) ∧
    (∀ u v : String, u = v → player_js_cache_key u = player_js_cache_key v) := by
  refine ⟨rfl, ?_, ?_⟩
  · intro url h1 h2 h3
    unfold player_js_cache_key get_player_id_and_path extract_player_info
    rw [h1, h2, h3]
  · intro u v h
    rw [h]

/-- Witness for C9: a URL failing all three regexes yields the identification
error, and the example key computation is repeatable. -/
theorem C9_player_js_cache_key_spec_witness :
    player_js_cache_key "https://example.com/page.txt"
      = .error (.playerIdentificationFailed "https://example.com/page.txt") ∧
    player_js_cache_key
        "https://www.youtube.com/s/player/abcd1234/player_ias.vflset/en_US/base.js"
      = player_js_cache_key
        "https://www.youtube.com/s/player/abcd1234/player_ias.vflset/en_US/base.js" :=
  ⟨C9_player_js_cache_key_spec.2.1 "https://example.com/page.txt" rfl rfl rfl,
   C9_player_js_cache_key_spec.2.2 _ _ rfl⟩

end Tydle
